import Mathlib

/-!
# Verification of the flow-log aggregator (`flow_log_parser.py`)

A shallow embedding of the core of `flow_log_parser.py`:

* Python string primitives (`str.strip`, `str.lower`, `str.split()`,
  `int(str)`) are modelled over `List Char` / `String`, restricted to the
  ASCII fragment the program exercises.
* Python `dict` / `defaultdict(int)` are modelled as association lists with
  Python's update semantics (existing key keeps its position, new keys are
  appended); `csv.DictReader`'s row-to-dict conversion is modelled including
  its padding of short rows with `None` (`restval`).
* Exception flow of `load_lookup_table` is modelled with `Except`: the
  `except (ValueError, KeyError)` clause catches exactly those two
  exceptions, while `TypeError` / `AttributeError` propagate.

Definitions come first, then the theorems about them.
-/

/-- Python `str.isspace`-style whitespace test, restricted to the ASCII
whitespace characters (space, tab, newline, carriage return, vertical tab,
form feed).  Used by `str.strip()` and `str.split()`. -/
def pySpace (c : Char) : Bool :=
  c == ' ' || c == '\t' || c == '\n' || c == '\r' || c == '\x0b' || c == '\x0c'

/-- The uppercase-to-lowercase table for the ASCII letters. -/
def upperLower : List (Char × Char) :=
  [('A', 'a'), ('B', 'b'), ('C', 'c'), ('D', 'd'), ('E', 'e'), ('F', 'f'),
   ('G', 'g'), ('H', 'h'), ('I', 'i'), ('J', 'j'), ('K', 'k'), ('L', 'l'),
   ('M', 'm'), ('N', 'n'), ('O', 'o'), ('P', 'p'), ('Q', 'q'), ('R', 'r'),
   ('S', 's'), ('T', 't'), ('U', 'u'), ('V', 'v'), ('W', 'w'), ('X', 'x'),
   ('Y', 'y'), ('Z', 'z')]

/-- ASCII model of Python's per-character lowercasing (`str.lower`):
the letters `A`–`Z` map to `a`–`z`, every other character is unchanged. -/
def pyLowerChar (c : Char) : Char :=
  ((upperLower.find? fun e => e.1 == c).map Prod.snd).getD c

/-- Python `str.lower()` (ASCII model). -/
def pyLower (s : String) : String := ⟨s.data.map pyLowerChar⟩

/-- Strip `pySpace` characters from both ends of a character list
(Python `str.strip()` at the list level). -/
def pyStripList (cs : List Char) : List Char :=
  ((cs.dropWhile pySpace).reverse.dropWhile pySpace).reverse

/-- Python `str.strip()` with no argument: remove surrounding whitespace. -/
def pyStrip (s : String) : String := ⟨pyStripList s.data⟩

/-- Parse the digit part of a Python integer literal after the first digit.
The `Bool` records whether the previously consumed character was an
underscore (Python allows single underscores only between digits). -/
def pyDigitsAux : Bool → Nat → List Char → Option Nat
  | false, acc, [] => some acc
  | true, _, [] => none
  | prev, acc, c :: rest =>
    if c.isDigit then pyDigitsAux false (acc * 10 + (c.toNat - 48)) rest
    else if c == '_' then
      if prev then none else pyDigitsAux true acc rest
    else none

/-- Parse a nonempty ASCII digit string (single underscores permitted
between digits) to its value, as Python `int` does after sign handling. -/
def pyDigits : List Char → Option Nat
  | [] => none
  | c :: rest => if c.isDigit then pyDigitsAux false (c.toNat - 48) rest else none

/-- Python `int(s)` for a string argument (ASCII model): strip surrounding
whitespace, allow one optional `+`/`-` sign, then a nonempty digit string.
Returns `none` where Python raises `ValueError`. -/
def pyInt (s : String) : Option Int :=
  match (pyStrip s).data with
  | '-' :: rest => (pyDigits rest).map fun n => -(n : Int)
  | '+' :: rest => (pyDigits rest).map fun n => (n : Int)
  | cs => (pyDigits cs).map fun n => (n : Int)

/-- Split a character list on runs of `pySpace` characters, dropping empty
pieces — Python `str.split()` with no separator argument.  `cur` is the
current word (in reverse) being accumulated. -/
def pySplitAux : List Char → List Char → List String
  | [], [] => []
  | [], cur => [⟨cur.reverse⟩]
  | c :: rest, cur =>
    if pySpace c then
      match cur with
      | [] => pySplitAux rest []
      | _ => ⟨cur.reverse⟩ :: pySplitAux rest []
    else pySplitAux rest (c :: cur)

/-- Python `str.split()` with no argument. -/
def pySplit (s : String) : List String := pySplitAux s.data []

/-- Python `dict` lookup on an association list: the value of the first
entry whose key equals `k` (insertion keeps keys unique, so at most one
entry matches). -/
def alGet {K V : Type} [DecidableEq K] : List (K × V) → K → Option V
  | [], _ => none
  | (k', v) :: rest, k => if k' = k then some v else alGet rest k

/-- Python `d[k] = v`: overwrite in place if the key is present (the entry
keeps its position, as in a Python dict), otherwise append a new entry. -/
def alInsert {K V : Type} [DecidableEq K] : List (K × V) → K → V → List (K × V)
  | [], k, v => [(k, v)]
  | (k', v') :: rest, k, v =>
    if k' = k then (k', v) :: rest else (k', v') :: alInsert rest k v

/-- Python `defaultdict(int)` increment `d[k] += 1`: bump the entry in
place if present, otherwise append the key with count `1`. -/
def alIncr {K : Type} [DecidableEq K] : List (K × Nat) → K → List (K × Nat)
  | [], k => [(k, 1)]
  | (k', v) :: rest, k =>
    if k' = k then (k', v + 1) :: rest else (k', v) :: alIncr rest k

/-- The Python exceptions that can arise inside `load_lookup_table`'s
`try` block. -/
inductive PyExn : Type
  | valueError
  | keyError
  | typeError
  | attributeError
deriving DecidableEq, Repr

/-- The state of a `FlowLogParser` object: the lookup table built by
`load_lookup_table` and the two frequency tables filled by
`parse_flow_log`. -/
structure FlowLogParser : Type where
  lookup_table : List ((Int × String) × String)
  tag_counts : List (String × Nat)
  port_protocol_counts : List ((Int × String) × Nat)
deriving DecidableEq, Repr

namespace FlowLogParser

/-- `csv.DictReader`'s conversion of one data row to a dict: fieldnames
(the header) are zipped with the row's cells; when the row is shorter than
the header, the remaining fieldnames get `restval = None` (modelled as
`none`).  Cells beyond the header go under the `restkey` key, which the
program never reads, so they are dropped. -/
def dictRow : List String → List String → List (String × Option String)
  | [], _ => []
  | f :: fs, [] => (f, none) :: dictRow fs []
  | f :: fs, v :: vs => (f, some v) :: dictRow fs vs

/-- Python `row[f]` on a `DictReader` row: `KeyError` when the header has
no field `f`, otherwise the cell (or `none` = Python `None` for a padded
short row). -/
def rowField (header row : List String) (f : String) : Except PyExn (Option String) :=
  match alGet (dictRow header row) f with
  | none => .error .keyError
  | some v => .ok v

/-- The body of `load_lookup_table`'s `try` block on one row:
`dstport = int(row['dstport'])`, `protocol = row['protocol'].lower().strip()`,
`tag = row['tag'].strip()`, yielding the key `(dstport, protocol)` and the
stored value `tag.lower()`.  `int(None)` raises `TypeError`; `.lower()` /
`.strip()` on `None` raise `AttributeError`; a non-integer string raises
`ValueError`. -/
def rowParse (header row : List String) : Except PyExn ((Int × String) × String) :=
  match rowField header row "dstport" with
  | .error e => .error e
  | .ok none => .error .typeError
  | .ok (some ds) =>
    match pyInt ds with
    | none => .error .valueError
    | some dstport =>
      match rowField header row "protocol" with
      | .error e => .error e
      | .ok none => .error .attributeError
      | .ok (some ps) =>
        let protocol := pyStrip (pyLower ps)
        match rowField header row "tag" with
        | .error e => .error e
        | .ok none => .error .attributeError
        | .ok (some ts) =>
          let tag := pyStrip ts
          .ok ((dstport, protocol), pyLower tag)

/-- One iteration of `load_lookup_table`'s row loop: on success insert into
the table; `ValueError` and `KeyError` are caught (`continue`); any other
exception propagates. -/
def lookupRowStep (header : List String) (tbl : List ((Int × String) × String))
    (row : List String) : Except PyExn (List ((Int × String) × String)) :=
  match rowParse header row with
  | .ok (k, t) => .ok (alInsert tbl k t)
  | .error e =>
    if e = .valueError ∨ e = .keyError then .ok tbl else .error e

/-- `load_lookup_table`'s loop over the data rows, starting from table
`tbl`.  `DictReader` skips rows that are empty lists (blank lines). -/
def loadFrom (header : List String) (tbl : List ((Int × String) × String)) :
    List (List String) → Except PyExn (List ((Int × String) × String))
  | [] => .ok tbl
  | row :: rest =>
    if row = [] then loadFrom header tbl rest
    else
      match lookupRowStep header tbl row with
      | .ok tbl' => loadFrom header tbl' rest
      | .error e => .error e

/-- `load_lookup_table`, with the CSV source given as its header field
names and data rows.  Returns the table, or the uncaught exception. -/
def load_lookup_table (header : List String) (rows : List (List String)) :
    Except PyExn (List ((Int × String) × String)) :=
  loadFrom header [] rows

/-- `_get_protocol_name`: the fixed `protocol_map` dict. -/
def protocol_map : List (Int × String) := [(1, "icmp"), (6, "tcp"), (17, "udp")]

/-- `_get_protocol_name(n)`: `protocol_map.get(n, 'unknown').lower()`. -/
def get_protocol_name (n : Int) : String :=
  pyLower ((alGet protocol_map n).getD "unknown")

/-- The body of `parse_flow_log`'s line loop on one raw line: strip, skip
if empty, split on whitespace, require at least 14 fields, parse
`fields[5]` (destination port) and `fields[7]` (protocol number) as
integers — a `ValueError` in either skips the whole line before any count
is touched — then bump `port_protocol_counts[(port, protocol)]` and
`tag_counts[lookup_table.get((port, protocol), 'Untagged')]`. -/
def processLine (p : FlowLogParser) (line : String) : FlowLogParser :=
  let l := pyStrip line
  if l = "" then p
  else
    let fields := pySplit l
    if fields.length < 14 then p
    else
      match pyInt (fields.getD 5 "") with
      | none => p
      | some dst_port =>
        match pyInt (fields.getD 7 "") with
        | none => p
        | some pn =>
          let protocol := get_protocol_name pn
          let p1 := { p with
            port_protocol_counts := alIncr p.port_protocol_counts (dst_port, protocol) }
          let tag := (alGet p1.lookup_table (dst_port, protocol)).getD "Untagged"
          { p1 with tag_counts := alIncr p1.tag_counts tag }

/-- `parse_flow_log` over a list of raw lines. -/
def parse_flow_log (p : FlowLogParser) (lines : List String) : FlowLogParser :=
  lines.foldl processLine p

/-- The `defaultdict` view of `tag_counts`: a missing tag counts `0`. -/
def tagCount (p : FlowLogParser) (t : String) : Nat :=
  (alGet p.tag_counts t).getD 0

/-- The `defaultdict` view of `port_protocol_counts`. -/
def ppCount (p : FlowLogParser) (k : Int × String) : Nat :=
  (alGet p.port_protocol_counts k).getD 0

/-- Python's `sorted` order on `tag_counts.items()`: tuples compare
lexicographically, so primarily by tag string, ties by count. -/
def tagItemLe (a b : String × Nat) : Bool :=
  decide (a.1 < b.1 ∨ (a.1 = b.1 ∧ a.2 ≤ b.2))

/-- Python's `sorted` order on `port_protocol_counts.items()`: by port,
then protocol string, then count. -/
def ppItemLe (a b : (Int × String) × Nat) : Bool :=
  decide (a.1.1 < b.1.1 ∨
    (a.1.1 = b.1.1 ∧ (a.1.2 < b.1.2 ∨ (a.1.2 = b.1.2 ∧ a.2 ≤ b.2))))

/-- `sorted(self.tag_counts.items())`. -/
def sortedTagItems (p : FlowLogParser) : List (String × Nat) :=
  p.tag_counts.mergeSort tagItemLe

/-- `sorted(self.port_protocol_counts.items())`. -/
def sortedPPItems (p : FlowLogParser) : List ((Int × String) × Nat) :=
  p.port_protocol_counts.mergeSort ppItemLe

/-- The text written for one tag row: `f"{tag},{count}"`. -/
def tagLine (e : String × Nat) : String := e.1 ++ "," ++ toString e.2

/-- The text written for one port/protocol row:
`f"{port},{protocol},{count}"`. -/
def ppLine (e : (Int × String) × Nat) : String :=
  toString e.1.1 ++ "," ++ e.1.2 ++ "," ++ toString e.2

/-- Concatenate lines, terminating each with `"\n"`. -/
def linesJoin : List String → String
  | [] => ""
  | l :: rest => l ++ "\n" ++ linesJoin rest

/-- `write_results`: the full text written to the output file, as the
concatenation of the source's `f.write` calls (each data row ends in
`"\n"`; the second section header is written as
`"\nPort/Protocol Combination Counts:\n"`, whose leading newline is the
blank separator line). -/
def write_results (p : FlowLogParser) : String :=
  "Tag Counts:\n" ++ "Tag,Count\n"
  ++ linesJoin ((sortedTagItems p).map tagLine)
  ++ "\nPort/Protocol Combination Counts:\n" ++ "Port,Protocol,Count\n"
  ++ linesJoin ((sortedPPItems p).map ppLine)

/-- The report as the list of its lines (what `write_results` emits,
line by line). -/
def resultLines (p : FlowLogParser) : List String :=
  ["Tag Counts:", "Tag,Count"]
  ++ (sortedTagItems p).map tagLine
  ++ [""]
  ++ ["Port/Protocol Combination Counts:", "Port,Protocol,Count"]
  ++ (sortedPPItems p).map ppLine

/-- The per-line decision of `parse_flow_log`, as a function of the lookup
table and the raw line alone: `none` when the line is skipped, otherwise
the `(port, protocolName)` key and the tag whose counters get bumped. -/
def lineKey (tbl : List ((Int × String) × String)) (line : String) :
    Option ((Int × String) × String) :=
  let l := pyStrip line
  if l = "" then none
  else
    let fields := pySplit l
    if fields.length < 14 then none
    else
      match pyInt (fields.getD 5 ""), pyInt (fields.getD 7 "") with
      | some dst_port, some pn =>
        let protocol := get_protocol_name pn
        some ((dst_port, protocol),
          (alGet tbl (dst_port, protocol)).getD "Untagged")
      | _, _ => none

/-- The tag incremented for a line, if any. -/
def tagKeyOf (tbl : List ((Int × String) × String)) (line : String) : Option String :=
  (lineKey tbl line).map Prod.snd

/-- The port/protocol key incremented for a line, if any. -/
def ppKeyOf (tbl : List ((Int × String) × String)) (line : String) :
    Option (Int × String) :=
  (lineKey tbl line).map Prod.fst

end FlowLogParser

/-- Sum of the counts stored in a frequency table. -/
def sumCounts {K : Type} (m : List (K × Nat)) : Nat := (m.map Prod.snd).sum

/-! ## Helper lemmas about the dict model -/

theorem alGet_alInsert {K V : Type} [DecidableEq K] (m : List (K × V)) (k k' : K) (v : V) :
    alGet (alInsert m k v) k' = if k = k' then some v else alGet m k' := by
  induction m with
  | nil => simp [alInsert, alGet]
  | cons e rest ih =>
    obtain ⟨k₀, v₀⟩ := e
    simp only [alInsert]
    by_cases h0 : k₀ = k
    · subst h0
      simp only [if_pos rfl, alGet]
      by_cases h : k₀ = k'
      · simp [h]
      · simp [h]
    · simp only [if_neg h0, alGet]
      by_cases h : k₀ = k'
      · have hk : ¬ k = k' := fun hk => h0 (h.trans hk.symm)
        simp [h, hk]
      · simp [h, ih]

theorem alGet_alIncr {K : Type} [DecidableEq K] (m : List (K × Nat)) (k k' : K) :
    (alGet (alIncr m k) k').getD 0 =
      (alGet m k').getD 0 + (if k' = k then 1 else 0) := by
  induction m with
  | nil =>
    simp only [alIncr, alGet]
    by_cases h : k' = k
    · simp [h]
    · have h2 : ¬ k = k' := fun hh => h hh.symm
      simp [h, h2]
  | cons e rest ih =>
    obtain ⟨k₀, v₀⟩ := e
    simp only [alIncr]
    by_cases h0 : k₀ = k
    · subst h0
      simp only [if_pos rfl, alGet]
      by_cases h : k₀ = k'
      · have h' : k' = k₀ := h.symm
        simp only [if_pos h, if_pos h']
        simp
      · have h' : ¬ k' = k₀ := fun hh => h hh.symm
        simp only [if_neg h, if_neg h']
        simp [alGet, h]
    · simp only [if_neg h0, alGet]
      by_cases h : k₀ = k'
      · have h' : ¬ k' = k := fun hh => h0 (h.trans hh)
        simp only [if_pos h, if_neg h']
        simp
      · simp only [if_neg h]
        exact ih

theorem sumCounts_alIncr {K : Type} [DecidableEq K] (m : List (K × Nat)) (k : K) :
    sumCounts (alIncr m k) = sumCounts m + 1 := by
  induction m with
  | nil => simp [alIncr, sumCounts]
  | cons e rest ih =>
    obtain ⟨k₀, v₀⟩ := e
    simp only [alIncr]
    by_cases h : k₀ = k
    · simp only [if_pos h, sumCounts, List.map_cons, List.sum_cons]
      omega
    · simp only [if_neg h, sumCounts, List.map_cons, List.sum_cons]
      simp only [sumCounts] at ih
      omega

theorem pos_of_mem_alIncr {K : Type} [DecidableEq K] (m : List (K × Nat)) (k : K)
    (hm : ∀ e ∈ m, 1 ≤ e.2) : ∀ e ∈ alIncr m k, 1 ≤ e.2 := by
  induction m with
  | nil => intro e he; simp [alIncr] at he; simp [he]
  | cons e₀ rest ih =>
    obtain ⟨k₀, v₀⟩ := e₀
    intro e he
    simp only [alIncr] at he
    by_cases h : k₀ = k
    · rw [if_pos h] at he
      rcases List.mem_cons.mp he with h1 | h1
      · simp [h1]
      · exact hm e (List.mem_cons_of_mem _ h1)
    · rw [if_neg h] at he
      rcases List.mem_cons.mp he with h1 | h1
      · subst h1; exact hm (k₀, v₀) (List.mem_cons_self _ _)
      · exact ih (fun e' he' => hm e' (List.mem_cons_of_mem _ he')) e h1

/-! ## Helper lemmas about the string model -/

theorem pySpace_pyLowerChar (c : Char) : pySpace (pyLowerChar c) = pySpace c := by
  unfold pyLowerChar
  cases hf : upperLower.find? (fun e => e.1 == c) with
  | none => rfl
  | some e =>
    have hmem : e ∈ upperLower := List.mem_of_find?_eq_some hf
    have hpred := List.find?_some hf
    have hc : e.1 = c := eq_of_beq (by simpa using hpred)
    have hboth : ∀ e ∈ upperLower, pySpace e.2 = false ∧ pySpace e.1 = false := by decide
    show pySpace e.2 = pySpace c
    rw [(hboth e hmem).1, ← hc, (hboth e hmem).2]

theorem pyStripList_map_pyLowerChar (cs : List Char) :
    pyStripList (cs.map pyLowerChar) = (pyStripList cs).map pyLowerChar := by
  have hps : pySpace ∘ pyLowerChar = pySpace := funext pySpace_pyLowerChar
  unfold pyStripList
  rw [List.dropWhile_map, hps, ← List.map_reverse, List.dropWhile_map, hps,
    ← List.map_reverse]

theorem pyStrip_pyLower (s : String) : pyStrip (pyLower s) = pyLower (pyStrip s) := by
  show (⟨pyStripList (s.data.map pyLowerChar)⟩ : String) = ⟨(pyStripList s.data).map pyLowerChar⟩
  rw [pyStripList_map_pyLowerChar]

/-! ## Helper lemmas about the aggregator -/

namespace FlowLogParser

theorem processLine_eq (p : FlowLogParser) (line : String) :
    processLine p line =
      match lineKey p.lookup_table line with
      | none => p
      | some (k, t) =>
        { p with
          port_protocol_counts := alIncr p.port_protocol_counts k,
          tag_counts := alIncr p.tag_counts t } := by
  unfold processLine lineKey
  by_cases h0 : pyStrip line = ""
  · simp [h0]
  · simp only [if_neg h0]
    by_cases h1 : (pySplit (pyStrip line)).length < 14
    · simp [h1]
    · simp only [if_neg h1]
      cases h5 : pyInt ((pySplit (pyStrip line)).getD 5 "") with
      | none => simp
      | some dp =>
        cases h7 : pyInt ((pySplit (pyStrip line)).getD 7 "") with
        | none => simp
        | some pn => simp

theorem processLine_lookup (p : FlowLogParser) (line : String) :
    (processLine p line).lookup_table = p.lookup_table := by
  rw [processLine_eq]
  cases lineKey p.lookup_table line with
  | none => rfl
  | some kt => obtain ⟨k, t⟩ := kt; rfl

theorem tagCount_processLine (p : FlowLogParser) (line : String) (t : String) :
    tagCount (processLine p line) t =
      tagCount p t + (if tagKeyOf p.lookup_table line = some t then 1 else 0) := by
  rw [processLine_eq]
  cases hk : lineKey p.lookup_table line with
  | none => simp [tagKeyOf, hk]
  | some kt =>
    obtain ⟨k, tg⟩ := kt
    simp only [tagKeyOf, hk, Option.map_some']
    show (alGet (alIncr p.tag_counts tg) t).getD 0 =
      (alGet p.tag_counts t).getD 0 + _
    rw [alGet_alIncr]
    by_cases h : t = tg
    · simp [h]
    · have h' : ¬ (some tg = some t) := fun hh =>
        h (Option.some.inj hh).symm
      simp [h, h']

theorem ppCount_processLine (p : FlowLogParser) (line : String) (k : Int × String) :
    ppCount (processLine p line) k =
      ppCount p k + (if ppKeyOf p.lookup_table line = some k then 1 else 0) := by
  rw [processLine_eq]
  cases hk : lineKey p.lookup_table line with
  | none => simp [ppKeyOf, hk]
  | some kt =>
    obtain ⟨k₀, tg⟩ := kt
    simp only [ppKeyOf, hk, Option.map_some']
    show (alGet (alIncr p.port_protocol_counts k₀) k).getD 0 =
      (alGet p.port_protocol_counts k).getD 0 + _
    rw [alGet_alIncr]
    by_cases h : k = k₀
    · simp [h]
    · have h' : ¬ (some k₀ = some k) := fun hh =>
        h (Option.some.inj hh).symm
      simp [h, h']

theorem tagCount_parse_flow_log (lines : List String) (p : FlowLogParser) (t : String) :
    tagCount (parse_flow_log p lines) t =
      tagCount p t + lines.countP (fun l => tagKeyOf p.lookup_table l == some t) := by
  induction lines generalizing p with
  | nil => simp [parse_flow_log]
  | cons l ls ih =>
    show tagCount (parse_flow_log (processLine p l) ls) t = _
    rw [ih, processLine_lookup, tagCount_processLine, List.countP_cons]
    by_cases h : tagKeyOf p.lookup_table l = some t
    · simp [h]; omega
    · simp [h]

theorem ppCount_parse_flow_log (lines : List String) (p : FlowLogParser) (k : Int × String) :
    ppCount (parse_flow_log p lines) k =
      ppCount p k + lines.countP (fun l => ppKeyOf p.lookup_table l == some k) := by
  induction lines generalizing p with
  | nil => simp [parse_flow_log]
  | cons l ls ih =>
    show ppCount (parse_flow_log (processLine p l) ls) k = _
    rw [ih, processLine_lookup, ppCount_processLine, List.countP_cons]
    by_cases h : ppKeyOf p.lookup_table l = some k
    · simp [h]; omega
    · simp [h]

end FlowLogParser

/-! ## Helper lemmas about the lookup-table loader -/

namespace FlowLogParser

theorem dictRow_nil_get (header : List String) (f : String) :
    alGet (dictRow header []) f = none ∨ alGet (dictRow header []) f = some none := by
  induction header with
  | nil => left; rfl
  | cons g gs ih =>
    simp only [dictRow, alGet]
    by_cases h : g = f
    · right; simp [h]
    · simpa [h] using ih

theorem rowField_nil (header : List String) (f s : String) :
    rowField header [] f ≠ Except.ok (some s) := by
  unfold rowField
  rcases dictRow_nil_get header f with h | h <;> simp [h]

theorem rowParse_nil (header : List String) (kt : (Int × String) × String) :
    rowParse header [] ≠ Except.ok kt := by
  unfold rowParse
  rcases dictRow_nil_get header "dstport" with h | h <;>
    simp [rowField, h]

theorem rowParse_badport (header row : List String) (s : String)
    (hd : rowField header row "dstport" = Except.ok (some s))
    (hbad : pyInt s = none) :
    rowParse header row = Except.error PyExn.valueError := by
  unfold rowParse
  simp only [hd, hbad]

theorem rowParse_fields (header row : List String) (s ps ts : String) (p : Int)
    (hd : rowField header row "dstport" = Except.ok (some s))
    (hp : pyInt s = some p)
    (hpr : rowField header row "protocol" = Except.ok (some ps))
    (ht : rowField header row "tag" = Except.ok (some ts)) :
    rowParse header row =
      Except.ok ((p, pyStrip (pyLower ps)), pyLower (pyStrip ts)) := by
  unfold rowParse
  simp only [hd, hp, hpr, ht]

theorem rowParse_ok_shape (header row : List String) (kt : (Int × String) × String)
    (h : rowParse header row = Except.ok kt) :
    ∃ s, kt.2 = pyLower (pyStrip s) := by
  unfold rowParse at h
  split at h
  · exact absurd h (by simp)
  · exact absurd h (by simp)
  · split at h
    · exact absurd h (by simp)
    · split at h
      · exact absurd h (by simp)
      · exact absurd h (by simp)
      · split at h
        · exact absurd h (by simp)
        · exact absurd h (by simp)
        · rename_i ts _
          injection h with h2
          subst h2
          exact ⟨ts, rfl⟩

theorem lookupRowStep_ok (header : List String) (tbl : List ((Int × String) × String))
    (r : List String) (t : List ((Int × String) × String))
    (h : lookupRowStep header tbl r = Except.ok t) :
    (∃ kt, rowParse header r = Except.ok kt ∧ t = alInsert tbl kt.1 kt.2) ∨ t = tbl := by
  revert h
  unfold lookupRowStep
  cases hp : rowParse header r with
  | ok kt =>
    obtain ⟨k, v⟩ := kt
    intro h
    left
    exact ⟨(k, v), rfl, (Except.ok.inj h).symm⟩
  | error e =>
    show (if e = PyExn.valueError ∨ e = PyExn.keyError
        then Except.ok tbl else Except.error e) = Except.ok t → _
    by_cases he : e = PyExn.valueError ∨ e = PyExn.keyError
    · rw [if_pos he]
      intro h
      right
      exact (Except.ok.inj h).symm
    · rw [if_neg he]
      intro h
      exact absurd h (by simp)

theorem loadFrom_cons (header : List String) (tbl : List ((Int × String) × String))
    (r : List String) (rs : List (List String)) (h : r ≠ []) :
    loadFrom header tbl (r :: rs) =
      match lookupRowStep header tbl r with
      | .ok tbl' => loadFrom header tbl' rs
      | .error e => .error e := by
  conv_lhs => unfold loadFrom
  rw [if_neg h]

theorem loadFrom_append (header : List String) (tbl : List ((Int × String) × String))
    (l1 l2 : List (List String)) :
    loadFrom header tbl (l1 ++ l2) =
      match loadFrom header tbl l1 with
      | .ok t => loadFrom header t l2
      | .error e => .error e := by
  induction l1 generalizing tbl with
  | nil => rfl
  | cons r rs ih =>
    by_cases h : r = []
    · subst h
      exact ih tbl
    · rw [List.cons_append, loadFrom_cons header tbl r (rs ++ l2) h,
        loadFrom_cons header tbl r rs h]
      cases lookupRowStep header tbl r with
      | ok t => exact ih t
      | error e => rfl

theorem loadFrom_values (header : List String) (rows : List (List String))
    (tbl tbl' : List ((Int × String) × String))
    (hinv : ∀ k v, alGet tbl k = some v → ∃ s, v = pyLower (pyStrip s))
    (h : loadFrom header tbl rows = Except.ok tbl') :
    ∀ k v, alGet tbl' k = some v → ∃ s, v = pyLower (pyStrip s) := by
  induction rows generalizing tbl with
  | nil =>
    cases h
    exact hinv
  | cons r rs ih =>
    by_cases hr : r = []
    · subst hr
      exact ih tbl hinv h
    · rw [loadFrom_cons header tbl r rs hr] at h
      revert h
      cases hstep : lookupRowStep header tbl r with
      | error e => intro h; exact absurd h (by simp)
      | ok t =>
        intro h
        refine ih t ?_ h
        rcases lookupRowStep_ok header tbl r t hstep with ⟨kt, hkt, rfl⟩ | rfl
        · obtain ⟨s, hs⟩ := rowParse_ok_shape header r kt hkt
          intro k v hv
          rw [alGet_alInsert] at hv
          by_cases hk : kt.1 = k
          · rw [if_pos hk] at hv
            exact ⟨s, by rw [← Option.some.inj hv, hs]⟩
          · rw [if_neg hk] at hv
            exact hinv k v hv
        · exact hinv

end FlowLogParser

/-! ## The claims -/

namespace FlowLogParser

/-- C1: every malformed input line — fewer than 14 whitespace-separated
tokens, or a token at position 6 or position 8 (1-indexed) that does not
parse as an integer — leaves the aggregator state (in particular both
`tag_counts` and `port_protocol_counts`) completely unchanged; a valid
port followed by an invalid protocol produces no partial count. -/
theorem claim_C1_malformed_line_skipped (p : FlowLogParser) (line : String)
    (h : (pySplit (pyStrip line)).length < 14
       ∨ pyInt ((pySplit (pyStrip line)).getD 5 "") = none
       ∨ pyInt ((pySplit (pyStrip line)).getD 7 "") = none) :
    processLine p line = p := by
  have hk : lineKey p.lookup_table line = none := by
    unfold lineKey
    by_cases h0 : pyStrip line = ""
    · simp [h0]
    · simp only [if_neg h0]
      by_cases h1 : (pySplit (pyStrip line)).length < 14
      · simp [h1]
      · simp only [if_neg h1]
        rcases h with h | h | h
        · exact absurd h h1
        · rw [h]
        · cases h5 : pyInt ((pySplit (pyStrip line)).getD 5 "") with
          | none => rfl
          | some dp => rw [h]
  rw [processLine_eq, hk]

/-- C1 witness: a line with 14 tokens, a valid port token `80` at position
6 and a non-numeric protocol token `xyz` at position 8 leaves the state
unchanged. -/
theorem claim_C1_witness :
    pyInt ((pySplit (pyStrip "a b c d e 80 g xyz i j k l m n")).getD 5 "") = some 80 ∧
    processLine ⟨[], [], []⟩ "a b c d e 80 g xyz i j k l m n" = ⟨[], [], []⟩ :=
  ⟨by decide,
   claim_C1_malformed_line_skipped ⟨[], [], []⟩ _ (Or.inr (Or.inr (by decide)))⟩

/-- C2: the protocol-number-to-name mapping is total on the integers:
`1 ↦ "icmp"`, `6 ↦ "tcp"`, `17 ↦ "udp"`, and every other integer maps to
`"unknown"`. -/
theorem claim_C2_protocol_map_total :
    get_protocol_name 1 = "icmp" ∧ get_protocol_name 6 = "tcp" ∧
    get_protocol_name 17 = "udp" ∧
    ∀ n : Int, n ≠ 1 → n ≠ 6 → n ≠ 17 → get_protocol_name n = "unknown" := by
  refine ⟨rfl, rfl, rfl, ?_⟩
  intro n h1 h6 h17
  have e1 : ¬ ((1 : Int) = n) := fun h => h1 h.symm
  have e6 : ¬ ((6 : Int) = n) := fun h => h6 h.symm
  have e17 : ¬ ((17 : Int) = n) := fun h => h17 h.symm
  unfold get_protocol_name protocol_map
  simp [alGet, e1, e6, e17]
  decide

/-- C2 witness: the protocol number 99 maps to `"unknown"`. -/
theorem claim_C2_witness : get_protocol_name 99 = "unknown" :=
  claim_C2_protocol_map_total.2.2.2 99 (by decide) (by decide) (by decide)

end FlowLogParser

namespace FlowLogParser

/-- C3: for every successfully parsed flow record the aggregator bumps
`tag_counts` at exactly one key by exactly 1: at `"Untagged"` (capital U,
as written in the source) when the `(port, protocolName)` key is absent
from the lookup table, and at the stored tag when it is present; all other
tag counts are unchanged.  Moreover every value stored in a lookup table
built by `load_lookup_table` is a lowercased (and stripped) string. -/
theorem claim_C3_tag_increment (p : FlowLogParser) (line : String) (dp pn : Int)
    (tag : String)
    (h14 : ¬ (pySplit (pyStrip line)).length < 14)
    (h5 : pyInt ((pySplit (pyStrip line)).getD 5 "") = some dp)
    (h7 : pyInt ((pySplit (pyStrip line)).getD 7 "") = some pn)
    (htag : tag = (alGet p.lookup_table (dp, get_protocol_name pn)).getD "Untagged") :
    tagCount (processLine p line) tag = tagCount p tag + 1
    ∧ (∀ t, t ≠ tag → tagCount (processLine p line) t = tagCount p t)
    ∧ (alGet p.lookup_table (dp, get_protocol_name pn) = none → tag = "Untagged")
    ∧ (∀ u, alGet p.lookup_table (dp, get_protocol_name pn) = some u → tag = u)
    ∧ (∀ header rows tbl, load_lookup_table header rows = Except.ok tbl →
        ∀ k v, alGet tbl k = some v → ∃ s, v = pyLower (pyStrip s)) := by
  have hne : pyStrip line ≠ "" := by
    intro h0
    rw [h0] at h14
    exact h14 (by decide)
  have hk : lineKey p.lookup_table line = some ((dp, get_protocol_name pn), tag) := by
    unfold lineKey
    simp only [if_neg hne, if_neg h14, h5, h7]
    rw [htag]
  have htk : tagKeyOf p.lookup_table line = some tag := by
    simp [tagKeyOf, hk]
  refine ⟨?_, ?_, ?_, ?_, ?_⟩
  · rw [tagCount_processLine, htk]
    simp
  · intro t ht
    have hcond : ¬ (some tag = some t) := fun hh => ht (Option.some.inj hh).symm
    rw [tagCount_processLine, htk, if_neg hcond]
    rfl
  · intro hnone
    rw [htag, hnone]
    rfl
  · intro u hu
    rw [htag, hu]
    rfl
  · intro header rows tbl hload k v hv
    refine loadFrom_values header rows [] tbl ?_ hload k v hv
    intro k v hv
    exact absurd hv (by simp [alGet])

/-- C3 witness: with lookup table `{(80, "tcp") ↦ "web"}`, a record with
port 80 and protocol number 6 bumps `tag_counts["web"]` from 0 to 1, and a
record with port 81 bumps `tag_counts["Untagged"]`. -/
theorem claim_C3_witness :
    tagCount (processLine ⟨[((80, "tcp"), "web")], [], []⟩
        "a b c d e 80 g 6 i j k l m n") "web"
      = tagCount ⟨[((80, "tcp"), "web")], [], []⟩ "web" + 1
    ∧ tagCount (processLine ⟨[((80, "tcp"), "web")], [], []⟩
        "a b c d e 81 g 6 i j k l m n") "Untagged"
      = tagCount ⟨[((80, "tcp"), "web")], [], []⟩ "Untagged" + 1 :=
  ⟨(claim_C3_tag_increment ⟨[((80, "tcp"), "web")], [], []⟩
      "a b c d e 80 g 6 i j k l m n" 80 6 "web"
      (by decide) (by decide) (by decide) (by decide)).1,
   (claim_C3_tag_increment ⟨[((80, "tcp"), "web")], [], []⟩
      "a b c d e 81 g 6 i j k l m n" 81 6 "Untagged"
      (by decide) (by decide) (by decide) (by decide)).1⟩

/-- C9: the final counts do not depend on the order of the flow-record
lines: for any permutation of the lines, every tag count and every
port/protocol count is the same (Python dict equality compares the
key-count mappings, which this per-key equality captures). -/
theorem claim_C9_order_independence (p : FlowLogParser) (l1 l2 : List String)
    (h : l1.Perm l2) :
    (∀ t, tagCount (parse_flow_log p l1) t = tagCount (parse_flow_log p l2) t)
    ∧ (∀ k, ppCount (parse_flow_log p l1) k = ppCount (parse_flow_log p l2) k) := by
  constructor
  · intro t
    rw [tagCount_parse_flow_log, tagCount_parse_flow_log, h.countP_eq]
  · intro k
    rw [ppCount_parse_flow_log, ppCount_parse_flow_log, h.countP_eq]

/-- C9 witness: swapping two concrete lines leaves the `"Untagged"` count
equal. -/
theorem claim_C9_witness :
    tagCount (parse_flow_log ⟨[], [], []⟩
      ["a b c d e 80 g 6 i j k l m n", "a b c d e 81 g 17 i j k l m n"]) "Untagged"
    = tagCount (parse_flow_log ⟨[], [], []⟩
      ["a b c d e 81 g 17 i j k l m n", "a b c d e 80 g 6 i j k l m n"]) "Untagged" :=
  (claim_C9_order_independence ⟨[], [], []⟩ _ _
    (List.Perm.swap "a b c d e 81 g 17 i j k l m n" "a b c d e 80 g 6 i j k l m n" [])).1
    "Untagged"

theorem parse_invariant (lines : List String) (p : FlowLogParser)
    (hs : sumCounts p.tag_counts = sumCounts p.port_protocol_counts)
    (h1 : ∀ e ∈ p.tag_counts, 1 ≤ e.2)
    (h2 : ∀ e ∈ p.port_protocol_counts, 1 ≤ e.2) :
    sumCounts (parse_flow_log p lines).tag_counts
      = sumCounts (parse_flow_log p lines).port_protocol_counts
    ∧ (∀ e ∈ (parse_flow_log p lines).tag_counts, 1 ≤ e.2)
    ∧ (∀ e ∈ (parse_flow_log p lines).port_protocol_counts, 1 ≤ e.2) := by
  induction lines generalizing p with
  | nil => exact ⟨hs, h1, h2⟩
  | cons l ls ih =>
    show sumCounts (parse_flow_log (processLine p l) ls).tag_counts = _ ∧ _ ∧ _
    refine ih (processLine p l) ?_ ?_ ?_
    · rw [processLine_eq]
      cases lineKey p.lookup_table l with
      | none => exact hs
      | some kt =>
        obtain ⟨k, t⟩ := kt
        show sumCounts (alIncr p.tag_counts t) = sumCounts (alIncr p.port_protocol_counts k)
        rw [sumCounts_alIncr, sumCounts_alIncr, hs]
    · rw [processLine_eq]
      cases lineKey p.lookup_table l with
      | none => exact h1
      | some kt =>
        obtain ⟨k, t⟩ := kt
        exact pos_of_mem_alIncr p.tag_counts t h1
    · rw [processLine_eq]
      cases lineKey p.lookup_table l with
      | none => exact h2
      | some kt =>
        obtain ⟨k, t⟩ := kt
        exact pos_of_mem_alIncr p.port_protocol_counts k h2

/-- C10: starting from empty counters, after processing any lines against
any lookup table the total of all tag counts equals the total of all
port/protocol counts, and every count stored in either table is
at least 1. -/
theorem claim_C10_totals (tbl : List ((Int × String) × String)) (lines : List String) :
    sumCounts (parse_flow_log ⟨tbl, [], []⟩ lines).tag_counts
      = sumCounts (parse_flow_log ⟨tbl, [], []⟩ lines).port_protocol_counts
    ∧ (∀ e ∈ (parse_flow_log ⟨tbl, [], []⟩ lines).tag_counts, 1 ≤ e.2)
    ∧ (∀ e ∈ (parse_flow_log ⟨tbl, [], []⟩ lines).port_protocol_counts, 1 ≤ e.2) :=
  parse_invariant lines ⟨tbl, [], []⟩ rfl (by simp) (by simp)

/-- C10 witness: one valid line against an empty lookup table: the sums
agree and the stored `("Untagged", 1)` entry has count at least 1. -/
theorem claim_C10_witness :
    sumCounts (parse_flow_log ⟨[], [], []⟩ ["a b c d e 80 g 6 i j k l m n"]).tag_counts
      = sumCounts (parse_flow_log ⟨[], [], []⟩
          ["a b c d e 80 g 6 i j k l m n"]).port_protocol_counts
    ∧ 1 ≤ (("Untagged", 1) : String × Nat).2 :=
  ⟨(claim_C10_totals [] ["a b c d e 80 g 6 i j k l m n"]).1,
   (claim_C10_totals [] ["a b c d e 80 g 6 i j k l m n"]).2.1 ("Untagged", 1) (by decide)⟩

end FlowLogParser

namespace FlowLogParser

/-- C4 counterexample: the claim says a `dstport` that is not a
*non-negative* integer is skipped, but Python `int` accepts a sign, so the
row `["-5", "tcp", "neg"]` is accepted and its key `(-5, "tcp")` is
present in the resulting mapping. -/
theorem claim_C4_counterexample :
    pyInt "-5" = some (-5)
    ∧ ¬ (0 ≤ (-5 : Int))
    ∧ load_lookup_table ["dstport", "protocol", "tag"] [["-5", "tcp", "neg"]]
        = Except.ok [((-5, "tcp"), "neg")]
    ∧ alGet [(((-5 : Int), "tcp"), "neg")] ((-5 : Int), "tcp") = some "neg" :=
  ⟨by decide, by decide, rfl, rfl⟩

/-- C4 (amended): the loader accepts the `dstport` field exactly when it
parses as a Python integer — an optional sign is allowed, so negative
values are accepted and stored; a row whose `dstport` does not parse as an
integer is silently skipped and contributes nothing to the mapping built
from the remaining rows. -/
theorem claim_C4_dstport_parse (header : List String) (pre post : List (List String))
    (row : List String) (s : String)
    (hd : rowField header row "dstport" = Except.ok (some s)) :
    (pyInt s = none →
      load_lookup_table header (pre ++ row :: post)
        = load_lookup_table header (pre ++ post))
    ∧ (∀ p ps ts, pyInt s = some p →
        rowField header row "protocol" = Except.ok (some ps) →
        rowField header row "tag" = Except.ok (some ts) →
        rowParse header row
          = Except.ok ((p, pyStrip (pyLower ps)), pyLower (pyStrip ts))) := by
  have hrow : row ≠ [] := fun hh => rowField_nil header "dstport" s (hh ▸ hd)
  constructor
  · intro hbad
    have hstep : ∀ t, lookupRowStep header t row = Except.ok t := by
      intro t
      unfold lookupRowStep
      rw [rowParse_badport header row s hd hbad]
      rfl
    have hcons : ∀ t, loadFrom header t (row :: post) = loadFrom header t post := by
      intro t
      rw [loadFrom_cons header t row post hrow, hstep t]
    show loadFrom header [] (pre ++ row :: post) = loadFrom header [] (pre ++ post)
    rw [loadFrom_append, loadFrom_append]
    cases loadFrom header [] pre with
    | ok t => exact hcons t
    | error e => rfl
  · intro p ps ts hp hpr ht
    exact rowParse_fields header row s ps ts p hd hp hpr ht

/-- C4 witness: a row with the non-integer port `"abc"` contributes
nothing, while a row with the negative port `"-5"` parses successfully. -/
theorem claim_C4_witness :
    load_lookup_table ["dstport", "protocol", "tag"] ([] ++ ["abc", "tcp", "x"] :: [])
      = load_lookup_table ["dstport", "protocol", "tag"] ([] ++ [])
    ∧ rowParse ["dstport", "protocol", "tag"] ["-5", "tcp", "neg"]
      = Except.ok ((-5, pyStrip (pyLower "tcp")), pyLower (pyStrip "neg")) :=
  ⟨(claim_C4_dstport_parse ["dstport", "protocol", "tag"] [] []
      ["abc", "tcp", "x"] "abc" rfl).1 (by decide),
   (claim_C4_dstport_parse ["dstport", "protocol", "tag"] [] []
      ["-5", "tcp", "neg"] "-5" rfl).2 (-5) "tcp" "neg"
      (by decide) rfl rfl⟩

/-- C5: contrary to the claim (and to the source's own
`# Skip invalid rows` intent), a data row that is missing one of the three
required fields does not get skipped: `csv.DictReader` pads the missing
cells with `None`, on which `.strip()` raises `AttributeError` and
`int(...)` raises `TypeError`, neither of which is caught by
`except (ValueError, KeyError)` — the load aborts, and a valid row after
the short one is never reached. -/
theorem claim_C5_short_row_crash :
    load_lookup_table ["dstport", "protocol", "tag"]
        [["25", "tcp"], ["80", "tcp", "web"]]
      = Except.error PyExn.attributeError
    ∧ load_lookup_table ["tag", "protocol", "dstport"] [["mail", "tcp"]]
      = Except.error PyExn.typeError :=
  ⟨rfl, rfl⟩

/-- C6: when two valid rows map to the same normalized key, the loader
succeeds (no duplicate-key error) and the later row's tag overwrites the
earlier one's. -/
theorem claim_C6_last_write_wins (header : List String) (pre : List (List String))
    (r1 r2 : List String) (k : Int × String) (t1 t2 : String)
    (tbl : List ((Int × String) × String))
    (hpre : load_lookup_table header pre = Except.ok tbl)
    (h1 : rowParse header r1 = Except.ok (k, t1))
    (h2 : rowParse header r2 = Except.ok (k, t2)) :
    load_lookup_table header (pre ++ [r1, r2])
      = Except.ok (alInsert (alInsert tbl k t1) k t2)
    ∧ alGet (alInsert (alInsert tbl k t1) k t2) k = some t2 := by
  have hr1 : r1 ≠ [] := fun hh => rowParse_nil header (k, t1) (hh ▸ h1)
  have hr2 : r2 ≠ [] := fun hh => rowParse_nil header (k, t2) (hh ▸ h2)
  have hs1 : lookupRowStep header tbl r1 = Except.ok (alInsert tbl k t1) := by
    unfold lookupRowStep
    rw [h1]
  have hs2 : lookupRowStep header (alInsert tbl k t1) r2
      = Except.ok (alInsert (alInsert tbl k t1) k t2) := by
    unfold lookupRowStep
    rw [h2]
  constructor
  · show loadFrom header [] (pre ++ [r1, r2]) = _
    rw [loadFrom_append]
    rw [show loadFrom header [] pre = Except.ok tbl from hpre]
    show loadFrom header tbl [r1, r2] = _
    rw [loadFrom_cons header tbl r1 [r2] hr1, hs1]
    show loadFrom header (alInsert tbl k t1) [r2] = _
    rw [loadFrom_cons header (alInsert tbl k t1) r2 [] hr2, hs2]
    rfl
  · rw [alGet_alInsert]
    simp

/-- C6 witness: two rows with normalized key `(80, "tcp")` (the second
written `"TCP"`) load without error and the final tag is the later
`"web2"`. -/
theorem claim_C6_witness :
    load_lookup_table ["dstport", "protocol", "tag"]
        ([] ++ [["80", "tcp", "web1"], ["80", "TCP", "web2"]])
      = Except.ok (alInsert (alInsert [] ((80 : Int), "tcp") "web1")
          ((80 : Int), "tcp") "web2")
    ∧ alGet (alInsert (alInsert [] ((80 : Int), "tcp") "web1")
          ((80 : Int), "tcp") "web2") ((80 : Int), "tcp") = some "web2" :=
  claim_C6_last_write_wins ["dstport", "protocol", "tag"] []
    ["80", "tcp", "web1"] ["80", "TCP", "web2"] (80, "tcp") "web1" "web2" []
    rfl rfl rfl

/-- C7: a valid lookup row is stored with protocol and tag trimmed of
surrounding whitespace and lowercased (the source computes
`lower().strip()` for the protocol; this equals `strip()` then `lower()`),
and the insertion uses exactly that normalized key and value. -/
theorem claim_C7_normalization (header row : List String) (s ps ts : String) (p : Int)
    (hd : rowField header row "dstport" = Except.ok (some s))
    (hp : pyInt s = some p)
    (hpr : rowField header row "protocol" = Except.ok (some ps))
    (ht : rowField header row "tag" = Except.ok (some ts)) :
    rowParse header row
      = Except.ok ((p, pyLower (pyStrip ps)), pyLower (pyStrip ts))
    ∧ ∀ tbl, lookupRowStep header tbl row
        = Except.ok (alInsert tbl (p, pyLower (pyStrip ps)) (pyLower (pyStrip ts))) := by
  have h0 := rowParse_fields header row s ps ts p hd hp hpr ht
  rw [pyStrip_pyLower] at h0
  refine ⟨h0, fun tbl => ?_⟩
  unfold lookupRowStep
  rw [h0]

/-- C7 witness: the row `" 25 , tcp , mail "` (cells `" 25 "`, `" tcp "`,
`" mail "`) yields key `(25, "tcp")` mapped to `"mail"`. -/
theorem claim_C7_witness :
    rowParse ["dstport", "protocol", "tag"] [" 25 ", " tcp ", " mail "]
      = Except.ok ((25, "tcp"), "mail")
    ∧ lookupRowStep ["dstport", "protocol", "tag"] [] [" 25 ", " tcp ", " mail "]
      = Except.ok [((25, "tcp"), "mail")] := by
  have h := claim_C7_normalization ["dstport", "protocol", "tag"]
    [" 25 ", " tcp ", " mail "] " 25 " " tcp " " mail " 25
    rfl (by decide) rfl rfl
  constructor
  · rw [h.1]
    rfl
  · rw [h.2 []]
    rfl

end FlowLogParser

/-! ## Helper lemmas about the report writer -/

namespace FlowLogParser

theorem tagItemLe_trans (a b c : String × Nat)
    (hab : tagItemLe a b = true) (hbc : tagItemLe b c = true) :
    tagItemLe a c = true := by
  simp only [tagItemLe, decide_eq_true_eq] at hab hbc ⊢
  rcases hab with h | ⟨e, hx⟩ <;> rcases hbc with h' | ⟨e', hx'⟩
  · exact Or.inl (h.trans h')
  · exact Or.inl (lt_of_lt_of_eq h e')
  · exact Or.inl (lt_of_eq_of_lt e h')
  · exact Or.inr ⟨e.trans e', hx.trans hx'⟩

theorem tagItemLe_total (a b : String × Nat) :
    (tagItemLe a b || tagItemLe b a) = true := by
  simp only [tagItemLe, Bool.or_eq_true, decide_eq_true_eq]
  rcases lt_trichotomy a.1 b.1 with h | h | h
  · exact Or.inl (Or.inl h)
  · rcases Nat.le_total a.2 b.2 with hx | hx
    · exact Or.inl (Or.inr ⟨h, hx⟩)
    · exact Or.inr (Or.inr ⟨h.symm, hx⟩)
  · exact Or.inr (Or.inl h)

theorem ppItemLe_trans (a b c : (Int × String) × Nat)
    (hab : ppItemLe a b = true) (hbc : ppItemLe b c = true) :
    ppItemLe a c = true := by
  simp only [ppItemLe, decide_eq_true_eq] at hab hbc ⊢
  rcases hab with h | ⟨e, h | ⟨f, hx⟩⟩ <;> rcases hbc with h' | ⟨e', h' | ⟨f', hx'⟩⟩
  · exact Or.inl (h.trans h')
  · exact Or.inl (lt_of_lt_of_eq h e')
  · exact Or.inl (lt_of_lt_of_eq h e')
  · exact Or.inl (lt_of_eq_of_lt e h')
  · exact Or.inr ⟨e.trans e', Or.inl (h.trans h')⟩
  · exact Or.inr ⟨e.trans e', Or.inl (lt_of_lt_of_eq h f')⟩
  · exact Or.inl (lt_of_eq_of_lt e h')
  · exact Or.inr ⟨e.trans e', Or.inl (lt_of_eq_of_lt f h')⟩
  · exact Or.inr ⟨e.trans e', Or.inr ⟨f.trans f', hx.trans hx'⟩⟩

theorem ppItemLe_total (a b : (Int × String) × Nat) :
    (ppItemLe a b || ppItemLe b a) = true := by
  simp only [ppItemLe, Bool.or_eq_true, decide_eq_true_eq]
  rcases lt_trichotomy a.1.1 b.1.1 with h | h | h
  · exact Or.inl (Or.inl h)
  · rcases lt_trichotomy a.1.2 b.1.2 with hs | hs | hs
    · exact Or.inl (Or.inr ⟨h, Or.inl hs⟩)
    · rcases Nat.le_total a.2 b.2 with hx | hx
      · exact Or.inl (Or.inr ⟨h, Or.inr ⟨hs, hx⟩⟩)
      · exact Or.inr (Or.inr ⟨h.symm, Or.inr ⟨hs.symm, hx⟩⟩)
    · exact Or.inr (Or.inr ⟨h.symm, Or.inl hs⟩)
  · exact Or.inr (Or.inl h)

theorem tagLine_ne_empty (e : String × Nat) : tagLine e ≠ "" := by
  intro h
  have hlen : (tagLine e).length = 0 := by rw [h]; rfl
  unfold tagLine at hlen
  rw [String.length_append, String.length_append] at hlen
  have h1 : (("," : String)).length = 1 := rfl
  omega

theorem ppLine_ne_empty (e : (Int × String) × Nat) : ppLine e ≠ "" := by
  intro h
  have hlen : (ppLine e).length = 0 := by rw [h]; rfl
  unfold ppLine at hlen
  rw [String.length_append, String.length_append, String.length_append,
    String.length_append] at hlen
  have h1 : (("," : String)).length = 1 := rfl
  omega

theorem linesJoin_append (a b : List String) :
    linesJoin (a ++ b) = linesJoin a ++ linesJoin b := by
  induction a with
  | nil =>
    show linesJoin b = linesJoin [] ++ linesJoin b
    rw [show linesJoin [] = "" from rfl]
    exact (String.empty_append _).symm
  | cons x xs ih =>
    show x ++ "\n" ++ linesJoin (xs ++ b) = (x ++ "\n" ++ linesJoin xs) ++ linesJoin b
    rw [ih, String.append_assoc, String.append_assoc, String.append_assoc]

end FlowLogParser

namespace FlowLogParser

theorem write_results_eq_linesJoin (p : FlowLogParser) :
    write_results p = linesJoin (resultLines p) := by
  unfold write_results resultLines
  rw [linesJoin_append, linesJoin_append, linesJoin_append, linesJoin_append]
  rw [show linesJoin ["Tag Counts:", "Tag,Count"] = "Tag Counts:\nTag,Count\n" from rfl]
  rw [show linesJoin [""] = "\n" from rfl]
  rw [show linesJoin ["Port/Protocol Combination Counts:", "Port,Protocol,Count"]
      = "Port/Protocol Combination Counts:\nPort,Protocol,Count\n" from rfl]
  rw [show ("Tag Counts:\n" : String) ++ "Tag,Count\n" = "Tag Counts:\nTag,Count\n" from rfl]
  rw [String.append_assoc
    ("Tag Counts:\nTag,Count\n" ++ linesJoin ((sortedTagItems p).map tagLine))
    "\nPort/Protocol Combination Counts:\n" "Port,Protocol,Count\n"]
  rw [show ("\nPort/Protocol Combination Counts:\n" : String) ++ "Port,Protocol,Count\n"
      = "\nPort/Protocol Combination Counts:\nPort,Protocol,Count\n" from rfl]
  rw [String.append_assoc
    ("Tag Counts:\nTag,Count\n" ++ linesJoin ((sortedTagItems p).map tagLine))
    "\n" "Port/Protocol Combination Counts:\nPort,Protocol,Count\n"]
  rw [show ("\n" : String) ++ "Port/Protocol Combination Counts:\nPort,Protocol,Count\n"
      = "\nPort/Protocol Combination Counts:\nPort,Protocol,Count\n" from rfl]

/-- C8: the report consists of the two fixed section headers with the tag
rows sorted in ascending lexicographic order of the tag string, the
port/protocol rows sorted by ascending (numeric port, lexicographic
protocol), and exactly one blank line (separating the sections) among the
emitted lines; the written text is exactly the newline-joined emitted
lines. -/
theorem claim_C8_report_format (p : FlowLogParser) :
    write_results p = linesJoin (resultLines p)
    ∧ List.Sorted (fun a b : String × Nat => a.1 < b.1 ∨ a.1 = b.1) (sortedTagItems p)
    ∧ List.Sorted (fun a b : (Int × String) × Nat =>
        a.1.1 < b.1.1 ∨ (a.1.1 = b.1.1 ∧ (a.1.2 < b.1.2 ∨ a.1.2 = b.1.2)))
        (sortedPPItems p)
    ∧ List.count "" (resultLines p) = 1 := by
  refine ⟨write_results_eq_linesJoin p, ?_, ?_, ?_⟩
  · have hs := List.sorted_mergeSort tagItemLe_trans tagItemLe_total p.tag_counts
    refine hs.imp ?_
    intro a b hab
    simp only [tagItemLe, decide_eq_true_eq] at hab
    rcases hab with h | ⟨e, _⟩
    · exact Or.inl h
    · exact Or.inr e
  · have hs := List.sorted_mergeSort ppItemLe_trans ppItemLe_total p.port_protocol_counts
    refine hs.imp ?_
    intro a b hab
    simp only [ppItemLe, decide_eq_true_eq] at hab
    rcases hab with h | ⟨e, h | ⟨f, _⟩⟩
    · exact Or.inl h
    · exact Or.inr ⟨e, Or.inl h⟩
    · exact Or.inr ⟨e, Or.inr f⟩
  · have htag0 : List.count "" ((sortedTagItems p).map tagLine) = 0 := by
      rw [List.count_eq_zero]
      intro hmem
      obtain ⟨e, _, he⟩ := List.mem_map.mp hmem
      exact tagLine_ne_empty e he
    have hpp0 : List.count "" ((sortedPPItems p).map ppLine) = 0 := by
      rw [List.count_eq_zero]
      intro hmem
      obtain ⟨e, _, he⟩ := List.mem_map.mp hmem
      exact ppLine_ne_empty e he
    unfold resultLines
    rw [List.count_append, List.count_append, List.count_append, List.count_append,
      htag0, hpp0]
    decide

end FlowLogParser
